import Mathlib

/-!
# The ALERT drift-chamber signal (`ahdcSignal`)

A shallow embedding of the class `ahdcSignal` of
`hitprocess/clas12/alert/ahdc_hitprocess.h`.

* C++ `double` is an arbitrary linearly ordered field `α` with a floor function
  (the rationals and the reals are instances); rounding error is not modelled.
* C++ `int` is `Int`; the constructor's arithmetic on the identifiers is reduced to the
  32-bit two's complement range (`wrapInt32`), as the `int` member that receives it holds it.
* `std::vector<double>` is `List α`; `v.at(i)` is the fallible lookup `v[i]?`.
* The Landau density of CLHEP and the member `ComputeDocaAndTime`, whose bodies are not part
  of the header, are parameters of the definitions that use them.
-/

namespace Ahdc

/-! ## Data model -/

/-- The arguments of CLHEP's `Genfun::Parameter(name, value, lowerLimit, upperLimit)`. -/
structure Parameter (α : Type) where
  /-- The label of the parameter. -/
  label : String
  /-- The value of the parameter. -/
  value : α
  /-- The lower limit given to the constructor. -/
  lowerLimit : α
  /-- The upper limit given to the constructor. -/
  upperLimit : α

/-- One entry of the identifier list of a hit; only its `id` is read. -/
structure identifier where
  /-- The numeric identifier. -/
  id : Int
deriving DecidableEq, Repr

/-- What the constructor reads from an `MHit`: `GetId()`, `GetEdep()` (MeV) and `GetTime()`. -/
structure MHit (α : Type) where
  /-- The identifier list, `GetId()`. -/
  GetId : List identifier
  /-- The step energies in MeV, `GetEdep()`. -/
  GetEdep : List α
  /-- The step times, `GetTime()`. -/
  GetTime : List α

/-- The data members of `ahdcSignal`. -/
structure ahdcSignal (α : Type) where
  /-- The index of the hit. -/
  hitn : Int
  /-- The sector. -/
  sector : Int
  /-- The layer. -/
  layer : Int
  /-- The component. -/
  component : Int
  /-- The number of steps. -/
  nsteps : Int
  /-- The step energies, keV. -/
  Edep : List α
  /-- The step times, ns. -/
  G4Time : List α
  /-- The distances of closest approach, mm. -/
  Doca : List α
  /-- The drift times, ns. -/
  DriftTime : List α
  /-- The digitized samples. -/
  Dgtz : List α
  /-- The noise sequence. -/
  Noise : List α
  /-- Start of the time window. -/
  tmin : α
  /-- End of the time window. -/
  tmax : α
  /-- The delay. -/
  delay : α
  /-- The sampling interval, ns. -/
  samplingTime : α
  /-- The gain. -/
  electronYield : α
  /-- The ADC ceiling. -/
  adc_max : Int
  /-- The shared width of the pulse shape. -/
  Landau_width : α

variable {α : Type}

/-! ## Getters -/

/-- The getter `Get_hitn()`. -/
def ahdcSignal.Get_hitn (s : ahdcSignal α) : Int := s.hitn

/-- The getter `Get_sector()`. -/
def ahdcSignal.Get_sector (s : ahdcSignal α) : Int := s.sector

/-- The getter `Get_layer()`. -/
def ahdcSignal.Get_layer (s : ahdcSignal α) : Int := s.layer

/-- The getter `Get_component()`. -/
def ahdcSignal.Get_component (s : ahdcSignal α) : Int := s.component

/-- The getter `Get_nsteps()`. -/
def ahdcSignal.Get_nsteps (s : ahdcSignal α) : Int := s.nsteps

/-- The getter `GetSamplingTime()`. -/
def ahdcSignal.GetSamplingTime (s : ahdcSignal α) : α := s.samplingTime

/-- The getter `GetElectronYield()`. -/
def ahdcSignal.GetElectronYield (s : ahdcSignal α) : α := s.electronYield

/-- The getter `GetAdcMax()`. -/
def ahdcSignal.GetAdcMax (s : ahdcSignal α) : Int := s.adc_max

/-- The getter `GetTmin()`. -/
def ahdcSignal.GetTmin (s : ahdcSignal α) : α := s.tmin

/-- The getter `GetTmax()`. -/
def ahdcSignal.GetTmax (s : ahdcSignal α) : α := s.tmax

/-- The getter `GetDelay()`. -/
def ahdcSignal.GetDelay (s : ahdcSignal α) : α := s.delay

/-- The getter `GetLandauWidth()`. -/
def ahdcSignal.GetLandauWidth (s : ahdcSignal α) : α := s.Landau_width

/-- The getter `GetEdep()`. -/
def ahdcSignal.GetEdep (s : ahdcSignal α) : List α := s.Edep

/-- The getter `GetG4Time()`. -/
def ahdcSignal.GetG4Time (s : ahdcSignal α) : List α := s.G4Time

/-- The getter `GetDoca()`. -/
def ahdcSignal.GetDoca (s : ahdcSignal α) : List α := s.Doca

/-- The getter `GetDriftTime()`. -/
def ahdcSignal.GetDriftTime (s : ahdcSignal α) : List α := s.DriftTime

/-- The getter `GetNoise()`. -/
def ahdcSignal.GetNoise (s : ahdcSignal α) : List α := s.Noise

/-- The getter `GetDgtz()`. -/
def ahdcSignal.GetDgtz (s : ahdcSignal α) : List α := s.Dgtz

/-! ## Setters -/

/-- The setter `SetSamplingTime(samplingTime_)`. -/
def ahdcSignal.SetSamplingTime (s : ahdcSignal α) (samplingTime_ : α) : ahdcSignal α :=
  { s with samplingTime := samplingTime_ }

/-- The setter `SetElectronYield(electronYield_)`. -/
def ahdcSignal.SetElectronYield (s : ahdcSignal α) (electronYield_ : α) : ahdcSignal α :=
  { s with electronYield := electronYield_ }

/-- The setter `SetAdcMax(adc_)`. -/
def ahdcSignal.SetAdcMax (s : ahdcSignal α) (adc_ : Int) : ahdcSignal α :=
  { s with adc_max := adc_ }

/-- The setter `SetTmin(tmin_)`. -/
def ahdcSignal.SetTmin (s : ahdcSignal α) (tmin_ : α) : ahdcSignal α :=
  { s with tmin := tmin_ }

/-- The setter `SetTmax(tmax_)`. -/
def ahdcSignal.SetTmax (s : ahdcSignal α) (tmax_ : α) : ahdcSignal α :=
  { s with tmax := tmax_ }

/-- The setter `SetDelay(delay_)`. -/
def ahdcSignal.SetDelay (s : ahdcSignal α) (delay_ : α) : ahdcSignal α :=
  { s with delay := delay_ }

/-- The setter `SetLandauWith(Landau_width_)`. -/
def ahdcSignal.SetLandauWith (s : ahdcSignal α) (Landau_width_ : α) : ahdcSignal α :=
  { s with Landau_width := Landau_width_ }

/-- The setter `SetNoise(Noise_)`. -/
def ahdcSignal.SetNoise (s : ahdcSignal α) (Noise_ : List α) : ahdcSignal α :=
  { s with Noise := Noise_ }

/-! ## Constructors -/

section Field

variable [LinearOrderedField α]

/-- The state after `k` iterations of the constructor's loop
`for (int s=0;s<nsteps;s++){Edep.at(s) = Edep.at(s)*1000;}`; `none` when `at` throws. -/
def convertLoop (Edep : List α) : Nat → Option (List α)
  | 0 => some Edep
  | k + 1 =>
    match convertLoop Edep k with
    | none => none
    | some E =>
      match E[k]? with
      | none => none
      | some e => some (E.set k (e * 1000))

/-- The value a 32-bit `int` holds for the integer `x`: `x` reduced modulo `2^32` to the range
from `-2147483648` to `2147483647`. -/
def wrapInt32 (x : Int) : Int :=
  (x + 2147483648) % 4294967296 - 2147483648

/-- The default constructor `ahdcSignal() = default`: the vectors are empty, the digitization
parameters take their member initialisers, and the five `int` identifiers, which have no
initialiser, hold whatever values are passed here. -/
def ahdcSignal.default (hitn sector layer component nsteps : Int) : ahdcSignal α where
  hitn := hitn
  sector := sector
  layer := layer
  component := component
  nsteps := nsteps
  Edep := []
  G4Time := []
  Doca := []
  DriftTime := []
  Dgtz := []
  Noise := []
  tmin := 0
  tmax := 6000
  delay := 1000
  samplingTime := 44
  electronYield := 9500
  adc_max := 4095
  Landau_width := 240

/-- The constructor `ahdcSignal(MHit * aHit, int hitn_)`. The member `ComputeDocaAndTime`,
declared in the header and defined elsewhere, is the parameter of the same name: from the
object built so far and the hit it gives the two vectors it fills, `Doca` and `DriftTime`.
The product and the sum of `layer = 10 * identity[0].id + identity[1].id` are `int`
operations. The result is `none` when `identity[0]`, `identity[1]` or `identity[2]` does not
exist. -/
def ahdcSignal.ofHit (ComputeDocaAndTime : ahdcSignal α → MHit α → List α × List α)
    (aHit : MHit α) (hitn_ : Int) : Option (ahdcSignal α) :=
  let identity := aHit.GetId
  match identity[0]?, identity[1]?, identity[2]? with
  | some i0, some i1, some i2 =>
    let Edep := aHit.GetEdep
    let nsteps : Int := Edep.length
    match convertLoop Edep nsteps.toNat with
    | none => none
    | some Edep1 =>
      let s0 : ahdcSignal α :=
        { hitn := hitn_
          sector := 0
          layer := wrapInt32 (wrapInt32 (10 * i0.id) + i1.id)
          component := i2.id
          nsteps := nsteps
          Edep := Edep1
          G4Time := aHit.GetTime
          Doca := []
          DriftTime := []
          Dgtz := []
          Noise := []
          tmin := 0
          tmax := 6000
          delay := 1000
          samplingTime := 44
          electronYield := 9500
          adc_max := 4095
          Landau_width := 240 }
      let r := ComputeDocaAndTime s0 aHit
      some { s0 with Doca := r.1, DriftTime := r.2 }
  | _, _, _ => none

/-! ## The waveform, `operator()` -/

/-- The value of `res` after `k` iterations of the loop of `operator()(double t)`; `none` when
`DriftTime.at(s)` or `Edep.at(s)` throws. `Landau peak width x` stands for the value at `x`
of CLHEP's `Genfun::Landau` whose `peak()` and `width()` were assigned the two parameters. -/
def callLoop (Landau : Parameter α → Parameter α → α → α) (sig : ahdcSignal α) (t : α) :
    Nat → Option α
  | 0 => some 0
  | k + 1 =>
    match callLoop Landau sig t k with
    | none => none
    | some res =>
      match sig.DriftTime[k]?, sig.Edep[k]? with
      | some d, some e =>
        some (res + e * Landau ⟨"Peak", d, sig.tmin, sig.tmax⟩
          ⟨"Width", sig.Landau_width, 0, 400⟩ (t - sig.delay))
      | _, _ => none

/-- The call operator `double operator()(double t)`. -/
def ahdcSignal.call (Landau : Parameter α → Parameter α → α → α) (sig : ahdcSignal α)
    (t : α) : Option α :=
  callLoop Landau sig t sig.nsteps.toNat

/-! ## Digitization and decoding

`Digitize`, `Decode`, `Apply_CFD`, `GetMCTime` and `GetMCEtot` are declared in the header and
defined elsewhere; the definitions of this section follow the written specification. -/

section Floor

variable [FloorRing α]

/-- Modelled from the spec: the body of `Digitize` is missing; this is its number of samples,
`N = ceil((tmax-tmin)/samplingTime)`, a loop bound, so never negative. -/
def ahdcSignal.Npts (s : ahdcSignal α) : Nat :=
  Int.toNat ⌈(s.tmax - s.tmin) / s.samplingTime⌉

/-- Modelled from the spec: the body of `Digitize` is missing; this is its clamp of an integer
code to `[0, adc_max]`. -/
def clampAdc (adc_max : Int) (v : Int) : Int :=
  max 0 (min v adc_max)

/-- Modelled from the spec: the body of `Digitize` is missing; this is the sample list after `k`
samples. Sample `k` is the waveform at `tmin + k * samplingTime`, scaled by `electronYield`,
plus entry `k` of the noise sequence, rounded to an integer code and clamped to `[0, adc_max]`.
It is `none` when the waveform faults or the noise sequence has no entry `k`. -/
def digitizeLoop (Landau : Parameter α → Parameter α → α → α) (s : ahdcSignal α) :
    Nat → Option (List α)
  | 0 => some []
  | k + 1 =>
    match digitizeLoop Landau s k with
    | none => none
    | some d =>
      match s.call Landau (s.tmin + (k : α) * s.samplingTime), s.Noise[k]? with
      | some w, some n =>
        some (d ++ [((clampAdc s.adc_max (round (s.electronYield * w + n)) : Int) : α)])
      | _, _ => none

/-- Modelled from the spec: the body of `Digitize` is missing. It takes `Npts` samples and
stores them as the digitized waveform, overwriting the one stored before. -/
def ahdcSignal.Digitize (Landau : Parameter α → Parameter α → α → α) (s : ahdcSignal α) :
    Option (ahdcSignal α) :=
  match digitizeLoop Landau s s.Npts with
  | none => none
  | some d => some { s with Dgtz := d }

end Floor

/-- Modelled from the spec: the body of `GetMCEtot` is missing; the truth energy is the sum of
the step energies of the signal. -/
def ahdcSignal.GetMCEtot (s : ahdcSignal α) : α :=
  s.Edep.sum

/-- Modelled from the spec: the body of `GetMCTime` is missing; the truth time is the minimum
of the step times of the signal, undefined (`none`) when there is no step. -/
def ahdcSignal.GetMCTime (s : ahdcSignal α) : Option α :=
  s.G4Time.min?

/-- Modelled from the spec: the body of `Apply_CFD` is missing. The peak amplitude is the largest
digitized sample; the comparison copy is the digitized waveform moved later by `CFD_delay`
samples; the result is the time of the earliest index at which the copy exceeds
`CFD_fraction` times the peak, and `none` when there is no such index. -/
def ahdcSignal.Apply_CFD (s : ahdcSignal α) (CFD_fraction : α) (CFD_delay : Int) : Option α :=
  let peak := s.Dgtz.foldl max 0
  let copy := List.replicate CFD_delay.toNat (0 : α) ++ s.Dgtz
  match copy.findIdx? (fun v => decide (CFD_fraction * peak < v)) with
  | none => none
  | some i => some (s.tmin + (i : α) * s.samplingTime)

/-- Modelled from the spec: the entries of the mapping that `Decode` returns. An entry that
the mapping does not contain is `none`. -/
structure Observables (α : Type) where
  /-- The leading-edge time of the constant-fraction discriminator. -/
  cfdTime : Option α
  /-- The truth time. -/
  mcTime : Option α
  /-- The truth energy. -/
  mcEtot : α

/-- Modelled from the spec: the body of `Decode` is missing. The discriminator's fraction and
delay, constants of that body, are parameters. With no step the decoded time is absent;
the truth time and the truth energy are the aggregations of the step sequence. -/
def ahdcSignal.Decode (CFD_fraction : α) (CFD_delay : Int) (s : ahdcSignal α) : Observables α :=
  { cfdTime := if s.nsteps ≤ 0 then none else s.Apply_CFD CFD_fraction CFD_delay
    mcTime := s.GetMCTime
    mcEtot := s.GetMCEtot }

/-! ## The objects of the class -/

/-- The `ahdcSignal` objects: those made by one of the two constructors and then changed by
any of the public operations. `GenerateNoise` writes the noise sequence only, which `bySetNoise`
covers; the decoding methods change nothing. -/
inductive ahdcSignal.Reachable [FloorRing α]
    (ComputeDocaAndTime : ahdcSignal α → MHit α → List α × List α) : ahdcSignal α → Prop
  | byDefault (hitn sector layer component nsteps : Int) :
      Reachable ComputeDocaAndTime (ahdcSignal.default hitn sector layer component nsteps)
  | byHit {aHit : MHit α} {hitn_ : Int} {s : ahdcSignal α} :
      ahdcSignal.ofHit ComputeDocaAndTime aHit hitn_ = some s → Reachable ComputeDocaAndTime s
  | bySetSamplingTime {s : ahdcSignal α} (x : α) :
      Reachable ComputeDocaAndTime s → Reachable ComputeDocaAndTime (s.SetSamplingTime x)
  | bySetElectronYield {s : ahdcSignal α} (x : α) :
      Reachable ComputeDocaAndTime s → Reachable ComputeDocaAndTime (s.SetElectronYield x)
  | bySetAdcMax {s : ahdcSignal α} (x : Int) :
      Reachable ComputeDocaAndTime s → Reachable ComputeDocaAndTime (s.SetAdcMax x)
  | bySetTmin {s : ahdcSignal α} (x : α) :
      Reachable ComputeDocaAndTime s → Reachable ComputeDocaAndTime (s.SetTmin x)
  | bySetTmax {s : ahdcSignal α} (x : α) :
      Reachable ComputeDocaAndTime s → Reachable ComputeDocaAndTime (s.SetTmax x)
  | bySetDelay {s : ahdcSignal α} (x : α) :
      Reachable ComputeDocaAndTime s → Reachable ComputeDocaAndTime (s.SetDelay x)
  | bySetLandauWith {s : ahdcSignal α} (x : α) :
      Reachable ComputeDocaAndTime s → Reachable ComputeDocaAndTime (s.SetLandauWith x)
  | bySetNoise {s : ahdcSignal α} (x : List α) :
      Reachable ComputeDocaAndTime s → Reachable ComputeDocaAndTime (s.SetNoise x)
  | byDigitize {s t : ahdcSignal α} (Landau : Parameter α → Parameter α → α → α) :
      Reachable ComputeDocaAndTime s → s.Digitize Landau = some t →
      Reachable ComputeDocaAndTime t

/-! ## Statement helpers and sample data -/

/-- What the getters other than the seven getters of the digitization parameters return:
the identifiers, the number of steps, the four step vectors, the noise and the digitized
samples. -/
def ahdcSignal.identityAndVectors (s : ahdcSignal α) :
    Int × Int × Int × Int × Int × List α × List α × List α × List α × List α × List α :=
  (s.Get_hitn, s.Get_sector, s.Get_layer, s.Get_component, s.Get_nsteps, s.GetEdep,
    s.GetG4Time, s.GetDoca, s.GetDriftTime, s.GetNoise, s.GetDgtz)

/-- A hit of superlayer 2, layer 1, wire 7, with two steps of 1/100 and 3/100 MeV. -/
def sampleHit : MHit ℚ :=
  { GetId := [⟨2⟩, ⟨1⟩, ⟨7⟩]
    GetEdep := [1 / 100, 3 / 100]
    GetTime := [5, 6] }

/-- The sample hit with superlayer identifier 300000000. -/
def wideHit : MHit ℚ :=
  { GetId := [⟨300000000⟩, ⟨1⟩, ⟨7⟩]
    GetEdep := [1 / 100, 3 / 100]
    GetTime := [5, 6] }

/-- A stand-in for `ComputeDocaAndTime`: one distance and one drift time per step time. -/
def sampleCompute (s : ahdcSignal ℚ) (_ : MHit ℚ) : List ℚ × List ℚ :=
  (s.G4Time.map (fun t => t / 10), s.G4Time.map (fun t => 100 * t))

/-- A stand-in for the Landau density: a non-negative pulse around the peak. -/
def sampleLandau (peak width : Parameter ℚ) (x : ℚ) : ℚ :=
  1 / (1 + ((x - peak.value) / width.value) ^ 2)

/-- The object that the constructor builds from `sampleHit` with hit index 3. -/
def sampleSignal : ahdcSignal ℚ :=
  { hitn := 3
    sector := 0
    layer := 21
    component := 7
    nsteps := 2
    Edep := [10, 30]
    G4Time := [5, 6]
    Doca := [1 / 2, 3 / 5]
    DriftTime := [500, 600]
    Dgtz := []
    Noise := []
    tmin := 0
    tmax := 6000
    delay := 1000
    samplingTime := 44
    electronYield := 9500
    adc_max := 4095
    Landau_width := 240 }

/-- A hit of the same wire with no step. -/
def emptyHit : MHit ℚ :=
  { GetId := [⟨2⟩, ⟨1⟩, ⟨7⟩]
    GetEdep := []
    GetTime := [] }

/-- The object that the constructor builds from `emptyHit` with hit index 0. -/
def emptySignal : ahdcSignal ℚ :=
  { hitn := 0
    sector := 0
    layer := 21
    component := 7
    nsteps := 0
    Edep := []
    G4Time := []
    Doca := []
    DriftTime := []
    Dgtz := []
    Noise := []
    tmin := 0
    tmax := 6000
    delay := 1000
    samplingTime := 44
    electronYield := 9500
    adc_max := 4095
    Landau_width := 240 }

/-- The sample signal with the window `[0, 100]` and a gain of 100: three samples. -/
def shortSignal : ahdcSignal ℚ :=
  (sampleSignal.SetTmax 100).SetElectronYield 100

/-- The signal with no step, the window `[0, 100]` and three noise entries, after its
digitization: the stored samples are the noise entries. -/
def emptyDigitized : ahdcSignal ℚ :=
  { (emptySignal.SetTmax 100).SetNoise [300, 250, 5] with Dgtz := [300, 250, 5] }

/-! ## Auxiliary facts -/

theorem wrapInt32_of_range (x : Int) (h1 : -2147483648 ≤ x) (h2 : x ≤ 2147483647) :
    wrapInt32 x = x := by
  unfold wrapInt32
  omega

theorem wrapInt32_layer (a b : Int) (h1 : -2147483648 ≤ 10 * a + b)
    (h2 : 10 * a + b ≤ 2147483647) : wrapInt32 (wrapInt32 (10 * a) + b) = 10 * a + b := by
  unfold wrapInt32
  omega

theorem convertLoop_eq (Edep : List α) (k : Nat) (hk : k ≤ Edep.length) :
    convertLoop Edep k = some ((Edep.take k).map (fun e => e * 1000) ++ Edep.drop k) := by
  induction k with
  | zero => simp [convertLoop]
  | succ k ih =>
    have hk1 : k < Edep.length := hk
    have hlen : ((Edep.take k).map (fun e => e * 1000)).length = k := by
      simp [List.length_take, Nat.min_eq_left (Nat.le_of_lt hk1)]
    have hdrop : Edep.drop k = Edep[k] :: Edep.drop (k + 1) := List.drop_eq_getElem_cons hk1
    have hget : ((Edep.take k).map (fun e => e * 1000) ++ Edep.drop k)[k]? = some Edep[k] := by
      rw [List.getElem?_append_right (by omega), hlen, Nat.sub_self, hdrop]
      simp
    simp only [convertLoop, ih (Nat.le_of_lt hk1), hget, Option.some.injEq]
    rw [List.set_append_right _ _ (by omega), hlen, Nat.sub_self, hdrop, List.set_cons_zero,
      List.take_succ, List.getElem?_eq_getElem hk1, List.map_append]
    simp only [Option.toList, List.map_cons, List.map_nil, List.append_assoc,
      List.singleton_append]

theorem convertLoop_length (Edep : List α) :
    convertLoop Edep Edep.length = some (Edep.map (fun e => e * 1000)) := by
  rw [convertLoop_eq Edep Edep.length (Nat.le_refl _)]
  simp

theorem ofHit_steps (ComputeDocaAndTime : ahdcSignal α → MHit α → List α × List α)
    (aHit : MHit α) (hitn_ : Int) (s : ahdcSignal α)
    (h : ahdcSignal.ofHit ComputeDocaAndTime aHit hitn_ = some s) :
    s.nsteps = aHit.GetEdep.length ∧ s.Edep = aHit.GetEdep.map (fun e => e * 1000) := by
  unfold ahdcSignal.ofHit at h
  simp only [Int.toNat_ofNat, convertLoop_length] at h
  split at h
  · simp only [Option.some.injEq] at h
    subst h
    exact ⟨rfl, rfl⟩
  · exact absurd h (by simp)

theorem ofHit_some (ComputeDocaAndTime : ahdcSignal α → MHit α → List α × List α)
    (aHit : MHit α) (hitn_ : Int) (i0 i1 i2 : identifier) (rest : List identifier)
    (hid : aHit.GetId = i0 :: i1 :: i2 :: rest) :
    ∃ s, ahdcSignal.ofHit ComputeDocaAndTime aHit hitn_ = some s ∧
      s.hitn = hitn_ ∧ s.sector = 0 ∧ s.layer = wrapInt32 (wrapInt32 (10 * i0.id) + i1.id) ∧
      s.component = i2.id ∧
      s.nsteps = aHit.GetEdep.length ∧ s.Edep = aHit.GetEdep.map (fun e => e * 1000) ∧
      s.G4Time = aHit.GetTime ∧ s.Dgtz = [] ∧ s.Noise = [] ∧
      s.tmin = 0 ∧ s.tmax = 6000 ∧ s.delay = 1000 ∧ s.samplingTime = 44 ∧
      s.electronYield = 9500 ∧ s.adc_max = 4095 ∧ s.Landau_width = 240 := by
  simp [ahdcSignal.ofHit, hid, convertLoop_length]

section Floor

variable [FloorRing α]

theorem Digitize_frame (Landau : Parameter α → Parameter α → α → α) (s t : ahdcSignal α)
    (h : s.Digitize Landau = some t) :
    ∃ d, digitizeLoop Landau s s.Npts = some d ∧ t = { s with Dgtz := d } := by
  unfold ahdcSignal.Digitize at h
  split at h
  · exact absurd h (by simp)
  · rename_i d hd
    simp only [Option.some.injEq] at h
    exact ⟨d, hd, h.symm⟩

/-- The steps of an object of the class are consistent: `nsteps` is the size of `Edep`, or
(after the default constructor) `Edep` and `DriftTime` are empty. -/
theorem Reachable_steps (ComputeDocaAndTime : ahdcSignal α → MHit α → List α × List α)
    (s : ahdcSignal α) (h : ahdcSignal.Reachable ComputeDocaAndTime s) :
    s.nsteps = s.Edep.length ∨ s.DriftTime = [] := by
  induction h with
  | byDefault => exact Or.inr rfl
  | byHit h => exact Or.inl (by rw [(ofHit_steps _ _ _ _ h).1, (ofHit_steps _ _ _ _ h).2]; simp)
  | bySetSamplingTime _ _ ih => exact ih
  | bySetElectronYield _ _ ih => exact ih
  | bySetAdcMax _ _ ih => exact ih
  | bySetTmin _ _ ih => exact ih
  | bySetTmax _ _ ih => exact ih
  | bySetDelay _ _ ih => exact ih
  | bySetLandauWith _ _ ih => exact ih
  | bySetNoise _ _ ih => exact ih
  | byDigitize Landau _ hd ih =>
    obtain ⟨d, _, rfl⟩ := Digitize_frame Landau _ _ hd
    exact ih

end Floor

/-- The sum that the loop of `operator()` accumulates over the first `k` steps. -/
theorem callLoop_eq (Landau : Parameter α → Parameter α → α → α) (sig : ahdcSignal α) (t : α)
    (k : Nat) (hE : k ≤ sig.Edep.length) (hD : k ≤ sig.DriftTime.length) :
    callLoop Landau sig t k = some (∑ i in Finset.range k, sig.Edep.getD i 0 *
      Landau ⟨"Peak", sig.DriftTime.getD i 0, sig.tmin, sig.tmax⟩
        ⟨"Width", sig.Landau_width, 0, 400⟩ (t - sig.delay)) := by
  induction k with
  | zero => simp [callLoop]
  | succ k ih =>
    have hE1 : k < sig.Edep.length := hE
    have hD1 : k < sig.DriftTime.length := hD
    simp only [callLoop, ih (Nat.le_of_lt hE1) (Nat.le_of_lt hD1),
      List.getElem?_eq_getElem hE1, List.getElem?_eq_getElem hD1, Finset.sum_range_succ,
      List.getD_eq_getElem _ _ hE1, List.getD_eq_getElem _ _ hD1]

theorem callLoop_nonneg (Landau : Parameter α → Parameter α → α → α) (sig : ahdcSignal α)
    (t : α) (hE : ∀ e ∈ sig.Edep, 0 ≤ e) (hL : ∀ p w x, 0 ≤ Landau p w x) (k : Nat) :
    ∀ v, callLoop Landau sig t k = some v → 0 ≤ v := by
  induction k with
  | zero =>
    intro v hv
    simp only [callLoop, Option.some.injEq] at hv
    exact hv ▸ le_refl _
  | succ k ih =>
    intro v hv
    simp only [callLoop] at hv
    split at hv
    · exact absurd hv (by simp)
    · rename_i res hres
      split at hv
      · rename_i d e hd he
        simp only [Option.some.injEq] at hv
        have hmem : e ∈ sig.Edep := List.mem_iff_getElem?.2 ⟨k, he⟩
        rw [← hv]
        exact add_nonneg (ih res hres) (mul_nonneg (hE e hmem) (hL _ _ _))
      · exact absurd hv (by simp)

theorem sampleSignal_ofHit : ahdcSignal.ofHit sampleCompute sampleHit 3 = some sampleSignal := by
  simp [ahdcSignal.ofHit, sampleHit, sampleCompute, sampleSignal, convertLoop]
  norm_num [wrapInt32]

theorem sampleSignal_reachable : ahdcSignal.Reachable sampleCompute sampleSignal :=
  ahdcSignal.Reachable.byHit sampleSignal_ofHit

/-! ## The waveform -/

section Floor

variable [FloorRing α]

/-- C1: for every object of the class whose `DriftTime` has at least `nsteps` entries and for
every time `t`, the call operator returns the sum over the steps `s < nsteps` of
`Edep[s] * L(t - delay)`, where `L` is the Landau shape with peak `DriftTime[s]` and the one
width `Landau_width`. -/
theorem C1_call_eq_sum (ComputeDocaAndTime : ahdcSignal α → MHit α → List α × List α)
    (Landau : Parameter α → Parameter α → α → α) (sig : ahdcSignal α)
    (hsig : ahdcSignal.Reachable ComputeDocaAndTime sig)
    (hD : sig.nsteps ≤ sig.DriftTime.length) (t : α) :
    sig.call Landau t = some (∑ s in Finset.range sig.nsteps.toNat, sig.Edep.getD s 0 *
      Landau ⟨"Peak", sig.DriftTime.getD s 0, sig.tmin, sig.tmax⟩
        ⟨"Width", sig.Landau_width, 0, 400⟩ (t - sig.delay)) := by
  unfold ahdcSignal.call
  rcases Reachable_steps ComputeDocaAndTime sig hsig with h | h
  · apply callLoop_eq
    · rw [h]; simp
    · omega
  · have h0 : sig.nsteps.toNat = 0 := by
      rw [h] at hD
      simp only [List.length_nil, Nat.cast_zero] at hD
      omega
    rw [h0]
    simp [callLoop]

/-- C1 at the sample signal: at `t = 1500` the value is `10 * L(500; 500) + 30 * L(500; 600)`
for the stand-in pulse shape. -/
theorem C1_call_eq_sum_witness :
    sampleSignal.call sampleLandau 1500 = some (10 * 1 + 30 * (1 / (1 + (-100 / 240) ^ 2))) := by
  have h := C1_call_eq_sum sampleCompute sampleLandau sampleSignal sampleSignal_reachable
    (by simp [sampleSignal]) 1500
  rw [h]
  simp [sampleSignal, sampleLandau, Finset.sum_range_succ]
  norm_num

/-- C2: when every step energy is non-negative and the pulse shape is non-negative everywhere,
every value the call operator returns is non-negative, and for an object of the class whose
`DriftTime` has at least `nsteps` entries it does return a value. -/
theorem C2_call_nonneg (Landau : Parameter α → Parameter α → α → α) (sig : ahdcSignal α)
    (hE : ∀ e ∈ sig.Edep, 0 ≤ e) (hL : ∀ p w x, 0 ≤ Landau p w x) (t : α) :
    (∀ v, sig.call Landau t = some v → 0 ≤ v) ∧
    (∀ ComputeDocaAndTime, ahdcSignal.Reachable ComputeDocaAndTime sig →
      sig.nsteps ≤ sig.DriftTime.length → ∃ v, sig.call Landau t = some v ∧ 0 ≤ v) := by
  have h1 : ∀ v, sig.call Landau t = some v → 0 ≤ v :=
    callLoop_nonneg Landau sig t hE hL sig.nsteps.toNat
  refine ⟨h1, ?_⟩
  intro C hsig hD
  rcases Reachable_steps C sig hsig with h | h
  · have hc := callLoop_eq Landau sig t sig.nsteps.toNat (by rw [h]; simp) (by omega)
    exact ⟨_, hc, h1 _ hc⟩
  · have h0 : sig.nsteps.toNat = 0 := by
      rw [h] at hD
      simp only [List.length_nil, Nat.cast_zero] at hD
      omega
    refine ⟨0, ?_, le_refl _⟩
    unfold ahdcSignal.call
    rw [h0]
    rfl

theorem sampleLandau_nonneg (p w : Parameter ℚ) (x : ℚ) : 0 ≤ sampleLandau p w x := by
  unfold sampleLandau
  positivity

/-- C2 at the sample signal: its energies 10 and 30 are non-negative, and its waveform at
`t = 1500` has a non-negative value. -/
theorem C2_call_nonneg_witness :
    (∀ e ∈ sampleSignal.Edep, 0 ≤ e) ∧ ∃ v, sampleSignal.call sampleLandau 1500 = some v ∧ 0 ≤ v :=
  have hE : ∀ e ∈ sampleSignal.Edep, 0 ≤ e := by
    intro e he
    simp only [sampleSignal, List.mem_cons, List.mem_singleton, List.not_mem_nil, or_false] at he
    rcases he with rfl | rfl <;> norm_num
  ⟨hE, (C2_call_nonneg sampleLandau sampleSignal hE sampleLandau_nonneg 1500).2 sampleCompute
    sampleSignal_reachable (by simp [sampleSignal])⟩

end Floor

/-! ## The constructor -/

/-- C8, the claim as stated fails: with the ids 300000000, 1, 7 the object holds the layer
-1294967295, the value of `10 * 300000000 + 1` in a 32-bit `int`, and not 3000000001. -/
theorem C8_identifiers_counterexample :
    ∃ s, ahdcSignal.ofHit sampleCompute wideHit 3 = some s ∧ s.Get_layer = -1294967295 ∧
      s.Get_layer ≠ 10 * 300000000 + 1 := by
  obtain ⟨s, hs, _, _, h3, _⟩ := ofHit_some sampleCompute wideHit 3 ⟨300000000⟩ ⟨1⟩ ⟨7⟩ [] rfl
  have hl : s.Get_layer = -1294967295 := by
    unfold ahdcSignal.Get_layer
    rw [h3]
    decide
  refine ⟨s, hs, hl, ?_⟩
  rw [hl]
  decide

/-- C8, as amended: a hit whose identifier list starts with the ids `superlayer`, `layerIndex`,
`comp`, with `10 * superlayer + layerIndex` in the range of a 32-bit `int`, gives, with index
`hitn_`, an object with `Get_layer() = 10 * superlayer + layerIndex`, `Get_component() = comp`,
`Get_hitn() = hitn_` and `Get_sector() = 0`. -/
theorem C8_identifiers (ComputeDocaAndTime : ahdcSignal α → MHit α → List α × List α)
    (aHit : MHit α) (hitn_ superlayer layerIndex comp : Int) (rest : List identifier)
    (hid : aHit.GetId = ⟨superlayer⟩ :: ⟨layerIndex⟩ :: ⟨comp⟩ :: rest)
    (hlo : -2147483648 ≤ 10 * superlayer + layerIndex)
    (hhi : 10 * superlayer + layerIndex ≤ 2147483647) :
    ∃ s, ahdcSignal.ofHit ComputeDocaAndTime aHit hitn_ = some s ∧
      s.Get_layer = 10 * superlayer + layerIndex ∧ s.Get_component = comp ∧
      s.Get_hitn = hitn_ ∧ s.Get_sector = 0 := by
  obtain ⟨s, hs, h1, h2, h3, h4, _⟩ := ofHit_some ComputeDocaAndTime aHit hitn_ _ _ _ rest hid
  refine ⟨s, hs, ?_, h4, h1, h2⟩
  unfold ahdcSignal.Get_layer
  rw [h3]
  exact wrapInt32_layer superlayer layerIndex hlo hhi

/-- C8, as amended, at the sample hit: superlayer 2, layer 1, wire 7 and hit index 3 give
layer 21. -/
theorem C8_identifiers_witness :
    ∃ s, ahdcSignal.ofHit sampleCompute sampleHit 3 = some s ∧
      s.Get_layer = 10 * 2 + 1 ∧ s.Get_component = 7 ∧ s.Get_hitn = 3 ∧ s.Get_sector = 0 :=
  C8_identifiers sampleCompute sampleHit 3 2 1 7 [] rfl (by decide) (by decide)

/-- C10: a hit with at least three identifiers and the energy sequence `e` of length `n` gives
an object with `Get_nsteps() = n` whose `GetEdep()` has length `n` and entry `1000 * e[s]` at
every `s < n`; non-negative inputs give non-negative stored energies, and the stored energies
sum to 1000 times the sum of the inputs. -/
theorem C10_energies (ComputeDocaAndTime : ahdcSignal α → MHit α → List α × List α)
    (aHit : MHit α) (hitn_ : Int) (hid : 3 ≤ aHit.GetId.length) :
    ∃ s, ahdcSignal.ofHit ComputeDocaAndTime aHit hitn_ = some s ∧
      s.Get_nsteps = aHit.GetEdep.length ∧ s.GetEdep.length = aHit.GetEdep.length ∧
      (∀ i (hi : i < aHit.GetEdep.length), s.GetEdep[i]? = some (1000 * aHit.GetEdep[i])) ∧
      ((∀ e ∈ aHit.GetEdep, 0 ≤ e) → ∀ x ∈ s.GetEdep, 0 ≤ x) ∧
      s.GetEdep.sum = 1000 * aHit.GetEdep.sum := by
  obtain ⟨i0, i1, i2, rest, hcons⟩ : ∃ i0 i1 i2 rest, aHit.GetId = i0 :: i1 :: i2 :: rest := by
    match h : aHit.GetId, hid with
    | i0 :: i1 :: i2 :: rest, _ => exact ⟨i0, i1, i2, rest, rfl⟩
  obtain ⟨s, hs, _, _, _, _, hn, hE, _⟩ :=
    ofHit_some ComputeDocaAndTime aHit hitn_ i0 i1 i2 rest hcons
  refine ⟨s, hs, hn, ?_, ?_, ?_, ?_⟩
  · simp [ahdcSignal.GetEdep, hE]
  · intro i hi
    simp [ahdcSignal.GetEdep, hE, List.getElem?_eq_getElem hi, mul_comm]
  · intro h x hx
    simp only [ahdcSignal.GetEdep, hE, List.mem_map] at hx
    obtain ⟨e, he, rfl⟩ := hx
    exact mul_nonneg (h e he) (by norm_num)
  · simp only [ahdcSignal.GetEdep, hE]
    rw [List.sum_map_mul_right, mul_comm]
    simp

/-- C10 at the sample hit: the two energies 1/100 and 3/100 are stored as 10 and 30. -/
theorem C10_energies_witness :
    ∃ s, ahdcSignal.ofHit sampleCompute sampleHit 3 = some s ∧ s.Get_nsteps = 2 ∧
      s.GetEdep = [10, 30] := by
  obtain ⟨s, hs, hn, _, hget, _, _⟩ := C10_energies sampleCompute sampleHit 3 (by decide)
  refine ⟨s, hs, hn, ?_⟩
  have h := sampleSignal_ofHit
  rw [hs] at h
  simp only [Option.some.injEq] at h
  rw [h]
  rfl

/-! ## Digitization -/

section Floor

variable [FloorRing α]

theorem clampAdc_range (adc_max v : Int) (h : 0 ≤ adc_max) :
    0 ≤ clampAdc adc_max v ∧ clampAdc adc_max v ≤ adc_max :=
  ⟨le_max_left _ _, max_le h (min_le_right _ _)⟩

theorem digitizeLoop_length (Landau : Parameter α → Parameter α → α → α) (s : ahdcSignal α)
    (k : Nat) : ∀ d, digitizeLoop Landau s k = some d → d.length = k := by
  induction k with
  | zero =>
    intro d h
    simp only [digitizeLoop, Option.some.injEq] at h
    rw [← h]
    rfl
  | succ k ih =>
    intro d h
    simp only [digitizeLoop] at h
    split at h
    · exact absurd h (by simp)
    · rename_i d0 hd0
      split at h
      · simp only [Option.some.injEq] at h
        rw [← h, List.length_append, ih d0 hd0]
        rfl
      · exact absurd h (by simp)

theorem digitizeLoop_range (Landau : Parameter α → Parameter α → α → α) (s : ahdcSignal α)
    (hadc : 0 ≤ s.adc_max) (k : Nat) :
    ∀ d, digitizeLoop Landau s k = some d →
      ∀ x ∈ d, ∃ v : Int, x = (v : α) ∧ 0 ≤ v ∧ v ≤ s.adc_max := by
  induction k with
  | zero =>
    intro d h x hx
    simp only [digitizeLoop, Option.some.injEq] at h
    rw [← h] at hx
    exact absurd hx (List.not_mem_nil x)
  | succ k ih =>
    intro d h x hx
    simp only [digitizeLoop] at h
    split at h
    · exact absurd h (by simp)
    · rename_i d0 hd0
      split at h
      · rename_i w n _ _
        simp only [Option.some.injEq] at h
        rw [← h, List.mem_append, List.mem_singleton] at hx
        rcases hx with hx | hx
        · exact ih d0 hd0 x hx
        · exact ⟨_, hx, (clampAdc_range _ _ hadc).1, (clampAdc_range _ _ hadc).2⟩
      · exact absurd h (by simp)

theorem digitizeLoop_some (Landau : Parameter α → Parameter α → α → α) (s : ahdcSignal α)
    (hcall : ∀ t, ∃ w, s.call Landau t = some w) (k : Nat) (hk : k ≤ s.Noise.length) :
    ∃ d, digitizeLoop Landau s k = some d := by
  induction k with
  | zero => exact ⟨[], rfl⟩
  | succ k ih =>
    have hk1 : k < s.Noise.length := hk
    obtain ⟨d0, hd0⟩ := ih (Nat.le_of_lt hk1)
    obtain ⟨w, hw⟩ := hcall (s.tmin + (k : α) * s.samplingTime)
    simp only [digitizeLoop, hd0, hw, List.getElem?_eq_getElem hk1]
    exact ⟨_, rfl⟩

theorem Reachable_call_some (ComputeDocaAndTime : ahdcSignal α → MHit α → List α × List α)
    (Landau : Parameter α → Parameter α → α → α) (s : ahdcSignal α)
    (hs : ahdcSignal.Reachable ComputeDocaAndTime s) (hD : s.nsteps ≤ s.DriftTime.length)
    (t : α) : ∃ w, s.call Landau t = some w := by
  unfold ahdcSignal.call
  rcases Reachable_steps ComputeDocaAndTime s hs with h | h
  · exact ⟨_, callLoop_eq Landau s t s.nsteps.toNat (by rw [h]; simp) (by omega)⟩
  · have h0 : s.nsteps.toNat = 0 := by
      rw [h] at hD
      simp only [List.length_nil, Nat.cast_zero] at hD
      omega
    rw [h0]
    exact ⟨0, rfl⟩

theorem Digitize_some (ComputeDocaAndTime : ahdcSignal α → MHit α → List α × List α)
    (Landau : Parameter α → Parameter α → α → α) (s : ahdcSignal α)
    (hs : ahdcSignal.Reachable ComputeDocaAndTime s) (hD : s.nsteps ≤ s.DriftTime.length)
    (hN : s.Npts ≤ s.Noise.length) : ∃ t, s.Digitize Landau = some t := by
  obtain ⟨d, hd⟩ := digitizeLoop_some Landau s
    (Reachable_call_some ComputeDocaAndTime Landau s hs hD) s.Npts hN
  exact ⟨{ s with Dgtz := d }, by simp [ahdcSignal.Digitize, hd]⟩

theorem Digitize_length (Landau : Parameter α → Parameter α → α → α) (s t : ahdcSignal α)
    (h : s.Digitize Landau = some t) : t.GetDgtz.length = s.Npts := by
  obtain ⟨d, hd, rfl⟩ := Digitize_frame Landau s t h
  exact digitizeLoop_length Landau s s.Npts d hd

theorem Npts_default (s : ahdcSignal α) (h0 : s.tmin = 0) (h1 : s.tmax = 6000)
    (h2 : s.samplingTime = 44) : s.Npts = 137 := by
  unfold ahdcSignal.Npts
  rw [h0, h1, h2]
  have h : ⌈((6000 : α) - 0) / 44⌉ = 137 := by
    rw [Int.ceil_eq_iff]
    constructor <;> norm_num
  rw [h]
  rfl

theorem ceil_short : ⌈((100 : ℚ) - 0) / 44⌉ = 3 := by
  rw [Int.ceil_eq_iff]
  constructor <;> norm_num

theorem shortSignal_Npts (noise : List ℚ) : (shortSignal.SetNoise noise).Npts = 3 := by
  unfold ahdcSignal.Npts
  simp only [shortSignal, sampleSignal, ahdcSignal.SetTmax, ahdcSignal.SetNoise,
    ahdcSignal.SetElectronYield]
  rw [ceil_short]
  rfl

theorem shortSignal_reachable (noise : List ℚ) :
    ahdcSignal.Reachable sampleCompute (shortSignal.SetNoise noise) :=
  ahdcSignal.Reachable.bySetNoise noise (ahdcSignal.Reachable.bySetElectronYield 100
    (ahdcSignal.Reachable.bySetTmax 100 sampleSignal_reachable))

theorem round_of_bounds (x : ℚ) (z : Int) (h1 : (z : ℚ) ≤ x + 1 / 2) (h2 : x + 1 / 2 < z + 1) :
    round x = z := by
  rw [round_eq, Int.floor_eq_iff]
  exact ⟨h1, h2⟩

/-- The three samples of the short sample signal for the noise 300, -20000, 5000: the first is
the rounded value, the second is clamped to 0 and the third to the ceiling 4095. -/
theorem shortSignal_Digitize :
    (shortSignal.SetNoise [300, -20000, 5000]).Digitize sampleLandau =
      some { shortSignal.SetNoise [300, -20000, 5000] with Dgtz := [391, 0, 4095] } := by
  unfold ahdcSignal.Digitize
  rw [shortSignal_Npts]
  simp only [digitizeLoop, ahdcSignal.call, callLoop, shortSignal, sampleSignal,
    ahdcSignal.SetTmax, ahdcSignal.SetNoise, ahdcSignal.SetElectronYield, sampleLandau, clampAdc]
  simp only [Int.toNat_ofNat, List.getElem?_cons_zero, List.getElem?_cons_succ]
  rw [round_of_bounds _ 391 (by norm_num) (by norm_num),
    round_of_bounds _ (-19904) (by norm_num) (by norm_num),
    round_of_bounds _ 5102 (by norm_num) (by norm_num)]
  simp

theorem emptySignal_Digitize :
    ((emptySignal.SetTmax 100).SetNoise [300, 250, 5]).Digitize sampleLandau =
      some emptyDigitized := by
  have hN : ((emptySignal.SetTmax 100).SetNoise [300, 250, 5]).Npts = 3 := by
    unfold ahdcSignal.Npts
    simp only [emptySignal, ahdcSignal.SetTmax, ahdcSignal.SetNoise]
    rw [ceil_short]
    rfl
  unfold ahdcSignal.Digitize
  rw [hN]
  simp [digitizeLoop, ahdcSignal.call, callLoop, emptySignal, emptyDigitized,
    ahdcSignal.SetTmax, ahdcSignal.SetNoise, clampAdc]

/-- On the digitized noise of the signal with no step the discriminator alone finds a
crossing, at the second sample. -/
theorem emptyDigitized_Apply_CFD : emptyDigitized.Apply_CFD (3 / 10) 1 = some 44 := by
  simp [ahdcSignal.Apply_CFD, emptyDigitized, emptySignal, ahdcSignal.SetTmax,
    ahdcSignal.SetNoise, List.findIdx?, List.replicate]
  norm_num

/-- C3: with `samplingTime > 0` and `tmax >= tmin`, whenever `Digitize()` completes the stored
digitized sequence has exactly `ceil((tmax - tmin) / samplingTime)` entries, and it does
complete for an object of the class with a drift time for each step and a noise entry for each
sample; with `tmin = 0`, `tmax = 6000`, `samplingTime = 44` the number of entries is 137. -/
theorem C3_digitize_length (Landau : Parameter α → Parameter α → α → α) (s : ahdcSignal α)
    (hst : 0 < s.samplingTime) (hw : s.tmin ≤ s.tmax) :
    (∀ t, s.Digitize Landau = some t →
      (t.GetDgtz.length : Int) = ⌈(s.tmax - s.tmin) / s.samplingTime⌉) ∧
    (∀ ComputeDocaAndTime, ahdcSignal.Reachable ComputeDocaAndTime s →
      s.nsteps ≤ s.DriftTime.length → s.Npts ≤ s.Noise.length →
      ∃ t, s.Digitize Landau = some t ∧
        (t.GetDgtz.length : Int) = ⌈(s.tmax - s.tmin) / s.samplingTime⌉) ∧
    (s.tmin = 0 → s.tmax = 6000 → s.samplingTime = 44 →
      ∀ t, s.Digitize Landau = some t → t.GetDgtz.length = 137) := by
  have hceil : (s.Npts : Int) = ⌈(s.tmax - s.tmin) / s.samplingTime⌉ := by
    unfold ahdcSignal.Npts
    exact Int.toNat_of_nonneg
      (Int.ceil_nonneg (div_nonneg (sub_nonneg.2 hw) (le_of_lt hst)))
  have h1 : ∀ t, s.Digitize Landau = some t →
      (t.GetDgtz.length : Int) = ⌈(s.tmax - s.tmin) / s.samplingTime⌉ := by
    intro t ht
    rw [Digitize_length Landau s t ht, hceil]
  refine ⟨h1, ?_, ?_⟩
  · intro C hs hD hN
    obtain ⟨t, ht⟩ := Digitize_some C Landau s hs hD hN
    exact ⟨t, ht, h1 t ht⟩
  · intro h0 h6000 h44 t ht
    rw [Digitize_length Landau s t ht, Npts_default s h0 h6000 h44]

/-- C3 at the short sample signal, whose window `[0, 100]` gives `ceil(100 / 44) = 3` samples,
and at the sample signal with 137 noise entries, where `Digitize()` stores 137 samples. -/
theorem C3_digitize_length_witness :
    (∃ t, (shortSignal.SetNoise [300, -20000, 5000]).Digitize sampleLandau = some t ∧
      t.GetDgtz = [391, 0, 4095] ∧ (t.GetDgtz.length : Int) = ⌈((100 : ℚ) - 0) / 44⌉) ∧
    (∃ t, (sampleSignal.SetNoise (List.replicate 137 300)).Digitize sampleLandau = some t ∧
      t.GetDgtz.length = 137) := by
  constructor
  · exact ⟨_, shortSignal_Digitize, rfl,
      (C3_digitize_length sampleLandau (shortSignal.SetNoise [300, -20000, 5000])
        (by norm_num [shortSignal, sampleSignal, ahdcSignal.SetNoise, ahdcSignal.SetTmax,
          ahdcSignal.SetElectronYield])
        (by norm_num [shortSignal, sampleSignal, ahdcSignal.SetNoise, ahdcSignal.SetTmax,
          ahdcSignal.SetElectronYield])).1 _ shortSignal_Digitize⟩
  · have h := C3_digitize_length sampleLandau (sampleSignal.SetNoise (List.replicate 137 300))
      (by simp [sampleSignal, ahdcSignal.SetNoise]) (by simp [sampleSignal, ahdcSignal.SetNoise])
    have hN : (sampleSignal.SetNoise (List.replicate 137 300)).Npts = 137 :=
      Npts_default _ rfl rfl rfl
    obtain ⟨t, ht, _⟩ := h.2.1 sampleCompute
      (ahdcSignal.Reachable.bySetNoise _ sampleSignal_reachable)
      (by simp [sampleSignal, ahdcSignal.SetNoise])
      (by rw [hN]; simp [ahdcSignal.SetNoise])
    exact ⟨t, ht, h.2.2 rfl rfl rfl t ht⟩

/-- C4: for every noise sequence and every `adc_max >= 0`, whenever `Digitize()` completes
every stored value is an integer code `v` with `0 <= v <= adc_max`, and it does complete for
an object of the class with a drift time for each step and a noise entry for each sample. -/
theorem C4_digitize_range (Landau : Parameter α → Parameter α → α → α) (s : ahdcSignal α)
    (noise : List α) (hadc : 0 ≤ s.adc_max) :
    (∀ t, (s.SetNoise noise).Digitize Landau = some t →
      ∀ x ∈ t.GetDgtz, ∃ v : Int, x = (v : α) ∧ 0 ≤ v ∧ v ≤ s.adc_max) ∧
    (∀ ComputeDocaAndTime, ahdcSignal.Reachable ComputeDocaAndTime s →
      s.nsteps ≤ s.DriftTime.length → s.Npts ≤ noise.length →
      ∃ t, (s.SetNoise noise).Digitize Landau = some t ∧
        ∀ x ∈ t.GetDgtz, ∃ v : Int, x = (v : α) ∧ 0 ≤ v ∧ v ≤ s.adc_max) := by
  have h1 : ∀ t, (s.SetNoise noise).Digitize Landau = some t →
      ∀ x ∈ t.GetDgtz, ∃ v : Int, x = (v : α) ∧ 0 ≤ v ∧ v ≤ s.adc_max := by
    intro t ht
    obtain ⟨d, hd, rfl⟩ := Digitize_frame Landau _ t ht
    exact digitizeLoop_range Landau (s.SetNoise noise) hadc _ d hd
  refine ⟨h1, ?_⟩
  intro C hs hD hN
  obtain ⟨t, ht⟩ := Digitize_some C Landau (s.SetNoise noise)
    (ahdcSignal.Reachable.bySetNoise noise hs) hD hN
  exact ⟨t, ht, h1 t ht⟩

/-- C4 at the short sample signal with the noise 300, -20000, 5000: the stored values are
391, 0 and 4095, each a code between 0 and 4095. -/
theorem C4_digitize_range_witness :
    ∃ t, (shortSignal.SetNoise [300, -20000, 5000]).Digitize sampleLandau = some t ∧
      t.GetDgtz = [391, 0, 4095] ∧
      ∀ x ∈ t.GetDgtz, ∃ v : Int, x = (v : ℚ) ∧ 0 ≤ v ∧ v ≤ 4095 :=
  ⟨_, shortSignal_Digitize, rfl,
    (C4_digitize_range sampleLandau shortSignal [300, -20000, 5000]
      (by simp [shortSignal, sampleSignal, ahdcSignal.SetTmax,
        ahdcSignal.SetElectronYield])).1 _ shortSignal_Digitize⟩

end Floor

/-! ## Truth values and decoding -/

theorem emptySignal_ofHit : ahdcSignal.ofHit sampleCompute emptyHit 0 = some emptySignal := by
  simp [ahdcSignal.ofHit, emptyHit, sampleCompute, emptySignal, convertLoop, wrapInt32]

section Floor

variable [FloorRing α]

end Floor

/-- C6: for an object with no step (`nsteps = 0`, empty `Edep` and `G4Time`), `Decode()`
returns a result in which the decoded time and the truth time are absent and the truth energy
is 0. -/
theorem C6_decode_empty (CFD_fraction : α) (CFD_delay : Int) (s : ahdcSignal α)
    (hn : s.nsteps = 0) (hE : s.Edep = []) (hT : s.G4Time = []) :
    (s.Decode CFD_fraction CFD_delay).cfdTime = none ∧
    (s.Decode CFD_fraction CFD_delay).mcTime = none ∧
    (s.Decode CFD_fraction CFD_delay).mcEtot = 0 := by
  simp [ahdcSignal.Decode, ahdcSignal.GetMCTime, ahdcSignal.GetMCEtot, hn, hE, hT]

/-- C6 at the object built from the hit with no step, and at the same object after the
digitization of three noise entries, where the discriminator alone would report 44. -/
theorem C6_decode_empty_witness :
    (∃ s, ahdcSignal.ofHit sampleCompute emptyHit 0 = some s ∧
      (s.Decode (3 / 10) 1).cfdTime = none ∧ (s.Decode (3 / 10) 1).mcTime = none ∧
      (s.Decode (3 / 10) 1).mcEtot = 0) ∧
    (((emptySignal.SetTmax 100).SetNoise [300, 250, 5]).Digitize sampleLandau =
        some emptyDigitized ∧ emptyDigitized.Apply_CFD (3 / 10) 1 = some 44 ∧
      (emptyDigitized.Decode (3 / 10) 1).cfdTime = none ∧
      (emptyDigitized.Decode (3 / 10) 1).mcTime = none ∧
      (emptyDigitized.Decode (3 / 10) 1).mcEtot = 0) :=
  ⟨⟨emptySignal, emptySignal_ofHit, C6_decode_empty (3 / 10) 1 emptySignal rfl rfl rfl⟩,
    emptySignal_Digitize, emptyDigitized_Apply_CFD,
    C6_decode_empty (3 / 10) 1 emptyDigitized rfl rfl rfl⟩

section Floor

variable [FloorRing α]

/-- C9, the claim as stated fails: a noise sequence of two entries installed in the object
built from the sample hit is owned with its two entries, while the digitized sequence has
137 samples. -/
theorem C9_noise_length_counterexample :
    ∃ s, ahdcSignal.ofHit sampleCompute sampleHit 3 = some s ∧
      (s.SetNoise [1, 2]).GetNoise.length = 2 ∧ (s.SetNoise [1, 2]).Npts = 137 ∧
      (s.SetNoise [1, 2]).GetNoise.length ≠ (s.SetNoise [1, 2]).Npts := by
  have hN : (sampleSignal.SetNoise [1, 2]).Npts = 137 := Npts_default _ rfl rfl rfl
  refine ⟨sampleSignal, sampleSignal_ofHit, rfl, hN, ?_⟩
  rw [hN]
  decide

/-- C9, as amended: the noise sequence owned after `SetNoise` is the installed sequence itself,
so its length equals the number of digitized samples exactly when the installed sequence has
that many entries, and then every sample index has a noise entry. -/
theorem C9_noise_length (s : ahdcSignal α) (noise : List α) :
    (s.SetNoise noise).GetNoise = noise ∧
    ((s.SetNoise noise).GetNoise.length = (s.SetNoise noise).Npts ↔ noise.length = s.Npts) ∧
    (noise.length = s.Npts →
      ∀ i, i < (s.SetNoise noise).Npts → ∃ n, (s.SetNoise noise).GetNoise[i]? = some n) := by
  refine ⟨rfl, Iff.rfl, ?_⟩
  intro h i hi
  have hi2 : i < noise.length := by
    rw [h]
    exact hi
  exact ⟨noise[i], List.getElem?_eq_getElem hi2⟩

end Floor

end Field

/-! ## Setters and getters -/

/-- C7: each of the seven setters of the digitization parameters makes its own getter return
the value set, and leaves the other six parameters, the identifiers, the step vectors, the
noise and the stored digitized samples as they were. -/
theorem C7_setters (s : ahdcSignal α) (x : α) (n : Int) :
    ((s.SetSamplingTime x).GetSamplingTime = x ∧
      (s.SetSamplingTime x).GetElectronYield = s.GetElectronYield ∧
      (s.SetSamplingTime x).GetAdcMax = s.GetAdcMax ∧
      (s.SetSamplingTime x).GetTmin = s.GetTmin ∧
      (s.SetSamplingTime x).GetTmax = s.GetTmax ∧
      (s.SetSamplingTime x).GetDelay = s.GetDelay ∧
      (s.SetSamplingTime x).GetLandauWidth = s.GetLandauWidth ∧
      (s.SetSamplingTime x).identityAndVectors = s.identityAndVectors) ∧
    ((s.SetElectronYield x).GetElectronYield = x ∧
      (s.SetElectronYield x).GetSamplingTime = s.GetSamplingTime ∧
      (s.SetElectronYield x).GetAdcMax = s.GetAdcMax ∧
      (s.SetElectronYield x).GetTmin = s.GetTmin ∧
      (s.SetElectronYield x).GetTmax = s.GetTmax ∧
      (s.SetElectronYield x).GetDelay = s.GetDelay ∧
      (s.SetElectronYield x).GetLandauWidth = s.GetLandauWidth ∧
      (s.SetElectronYield x).identityAndVectors = s.identityAndVectors) ∧
    ((s.SetAdcMax n).GetAdcMax = n ∧
      (s.SetAdcMax n).GetSamplingTime = s.GetSamplingTime ∧
      (s.SetAdcMax n).GetElectronYield = s.GetElectronYield ∧
      (s.SetAdcMax n).GetTmin = s.GetTmin ∧
      (s.SetAdcMax n).GetTmax = s.GetTmax ∧
      (s.SetAdcMax n).GetDelay = s.GetDelay ∧
      (s.SetAdcMax n).GetLandauWidth = s.GetLandauWidth ∧
      (s.SetAdcMax n).identityAndVectors = s.identityAndVectors) ∧
    ((s.SetTmin x).GetTmin = x ∧
      (s.SetTmin x).GetSamplingTime = s.GetSamplingTime ∧
      (s.SetTmin x).GetElectronYield = s.GetElectronYield ∧
      (s.SetTmin x).GetAdcMax = s.GetAdcMax ∧
      (s.SetTmin x).GetTmax = s.GetTmax ∧
      (s.SetTmin x).GetDelay = s.GetDelay ∧
      (s.SetTmin x).GetLandauWidth = s.GetLandauWidth ∧
      (s.SetTmin x).identityAndVectors = s.identityAndVectors) ∧
    ((s.SetTmax x).GetTmax = x ∧
      (s.SetTmax x).GetSamplingTime = s.GetSamplingTime ∧
      (s.SetTmax x).GetElectronYield = s.GetElectronYield ∧
      (s.SetTmax x).GetAdcMax = s.GetAdcMax ∧
      (s.SetTmax x).GetTmin = s.GetTmin ∧
      (s.SetTmax x).GetDelay = s.GetDelay ∧
      (s.SetTmax x).GetLandauWidth = s.GetLandauWidth ∧
      (s.SetTmax x).identityAndVectors = s.identityAndVectors) ∧
    ((s.SetDelay x).GetDelay = x ∧
      (s.SetDelay x).GetSamplingTime = s.GetSamplingTime ∧
      (s.SetDelay x).GetElectronYield = s.GetElectronYield ∧
      (s.SetDelay x).GetAdcMax = s.GetAdcMax ∧
      (s.SetDelay x).GetTmin = s.GetTmin ∧
      (s.SetDelay x).GetTmax = s.GetTmax ∧
      (s.SetDelay x).GetLandauWidth = s.GetLandauWidth ∧
      (s.SetDelay x).identityAndVectors = s.identityAndVectors) ∧
    ((s.SetLandauWith x).GetLandauWidth = x ∧
      (s.SetLandauWith x).GetSamplingTime = s.GetSamplingTime ∧
      (s.SetLandauWith x).GetElectronYield = s.GetElectronYield ∧
      (s.SetLandauWith x).GetAdcMax = s.GetAdcMax ∧
      (s.SetLandauWith x).GetTmin = s.GetTmin ∧
      (s.SetLandauWith x).GetTmax = s.GetTmax ∧
      (s.SetLandauWith x).GetDelay = s.GetDelay ∧
      (s.SetLandauWith x).identityAndVectors = s.identityAndVectors) :=
  ⟨⟨rfl, rfl, rfl, rfl, rfl, rfl, rfl, rfl⟩, ⟨rfl, rfl, rfl, rfl, rfl, rfl, rfl, rfl⟩,
    ⟨rfl, rfl, rfl, rfl, rfl, rfl, rfl, rfl⟩, ⟨rfl, rfl, rfl, rfl, rfl, rfl, rfl, rfl⟩,
    ⟨rfl, rfl, rfl, rfl, rfl, rfl, rfl, rfl⟩, ⟨rfl, rfl, rfl, rfl, rfl, rfl, rfl, rfl⟩,
    ⟨rfl, rfl, rfl, rfl, rfl, rfl, rfl, rfl⟩⟩

end Ahdc
